import Mathlib

/-!
Verification development for the Ansys documentation loader.
The definitions model, in Lean, the Python functions of
src/ansys_resource_loader.py, src/server_http.py and
src/scripts/extract_pdf_content.py over explicit corpus data.
Python strings are modelled as Lean strings (sequences of code points),
Python ints as Int, and Python float division as exact division in Rat.
-/

namespace Ansys

/-- Model of the Python whitespace test used by str.split, str.strip and
the whitespace character class of the re module, restricted to the ASCII
range; the Unicode cases behave identically for the properties proved here. -/
def isPySpace (c : Char) : Bool :=
  c = ' ' || c = '\t' || c = '\n' || c = '\r' || c = '\x0b' || c = '\x0c'

/-- Model of Python str.lower, one code point at a time; Char.toLower
covers the ASCII range, which coincides with str.lower on the ASCII
texts of the corpus. -/
def pyLower (s : String) : String := String.mk (s.data.map Char.toLower)

/-- takeEq sub s decides whether sub occurs at the head of s. -/
def takeEq (sub s : List Char) : Bool := decide (s.take sub.length = sub)

/-- Model of the Python substring operator, sub in s. -/
def pySubstr (sub : List Char) : List Char → Bool
  | [] => sub.isEmpty
  | c :: t => takeEq sub (c :: t) || pySubstr sub t

/-- String form of the Python substring operator. -/
def pyInStr (sub s : String) : Bool := pySubstr sub.data s.data

/-- Scanner for Python str.count: the counter argument is the number of
positions still covered by the previous match, which the scan passes over
without testing, giving the non-overlapping semantics of str.count. -/
def countSkip (sub : List Char) : List Char → Nat → Nat
  | [], _ => 0
  | _ :: t, k + 1 => countSkip sub t k
  | c :: t, 0 =>
    if takeEq sub (c :: t) then 1 + countSkip sub t (sub.length - 1)
    else countSkip sub t 0

/-- Model of Python str.count: non-overlapping occurrences found scanning
left to right; the count of the empty pattern is the length plus one,
as in CPython. -/
def pyCount (s sub : List Char) : Nat :=
  if sub.isEmpty then s.length + 1 else countSkip sub s 0

/-- String form of Python str.count. -/
def pyCountStr (s sub : String) : Nat := pyCount s.data sub.data

/-- Model of Python str.split with no separator; the accumulator holds the
current word reversed. -/
def pySplitGo : List Char → List Char → List (List Char)
  | acc, [] => if acc.isEmpty then [] else [acc.reverse]
  | acc, c :: t =>
    if isPySpace c then
      if acc.isEmpty then pySplitGo [] t else acc.reverse :: pySplitGo [] t
    else pySplitGo (c :: acc) t

/-- Model of Python str.split with no separator: maximal runs of
non-whitespace characters, empty tokens discarded. -/
def pySplit (s : List Char) : List (List Char) := pySplitGo [] s

/-- Model of Python str.strip with no argument. -/
def pyStrip (l : List Char) : List Char :=
  ((l.dropWhile isPySpace).reverse.dropWhile isPySpace).reverse

/-- Model of the Python slice l[:k] for an arbitrary integer k: a
non-negative k keeps the first k elements, a negative k drops the last
(-k) elements. -/
def pySliceTo (k : Int) (l : List α) : List α :=
  if 0 ≤ k then l.take k.toNat else l.take (l.length - (-k).toNat)

/-- Model of Python list.index: position of the first element equal to a.
The source only calls it on elements taken from the list itself, where
list.index cannot raise; on an absent element this total model returns
the length. -/
def pyIndex [DecidableEq α] (l : List α) (a : α) : Nat :=
  l.findIdx (fun x => decide (x = a))

example : pyCount "aaaa".data "aa".data = 2 := by decide
example : pyCount "abc".data "".data = 4 := by decide
example : pySplit " a  bc ".data = ["a".data, "bc".data] := by decide
example : pySubstr "bc".data "abcd".data = true := by decide
example : pySubstr "".data "".data = true := by decide
example : pyStrip "  ab ".data = "ab".data := by decide
example : pySliceTo (-1) [1, 2, 3] = [1, 2] := by decide
example : pySliceTo 2 [1, 2, 3] = [1, 2] := by decide
example : pySliceTo (-5) [1, 2, 3] = ([] : List Nat) := by decide

/-! ## Regular expression substitution, as used by clean_text

The four patterns of clean_text in src/scripts/extract_pdf_content.py are
modelled by matchers: a matcher receives the remaining text and returns
the number of characters consumed by a match starting at its head, if any.
re.sub replaces the leftmost non-overlapping matches, which equals a left
to right scan that, at each position not covered by a previous match,
emits the replacement and passes over the matched characters on success,
and copies one character on failure. None of the four patterns can match
the empty string. -/

/-- One pass of re.sub for a matcher and a fixed replacement; the counter
argument is the number of characters of the current match still to be
passed over without being tested or emitted. -/
def subRunGo (tryM : List Char → Option Nat) (repl : List Char) :
    List Char → Nat → List Char
  | [], _ => []
  | _ :: t, k + 1 => subRunGo tryM repl t k
  | c :: t, 0 =>
    match tryM (c :: t) with
    | some n => repl ++ subRunGo tryM repl t (n - 1)
    | none => c :: subRunGo tryM repl t 0

/-- Model of re.sub for a matcher and a fixed replacement string. -/
def subRun (tryM : List Char → Option Nat) (repl : List Char)
    (s : List Char) : List Char :=
  subRunGo tryM repl s 0

/-- Matcher for a case-insensitive literal, modelling a literal regular
expression fragment under re.IGNORECASE. -/
def ciTakeEq : List Char → List Char → Bool
  | [], _ => true
  | _ :: _, [] => false
  | a :: as, b :: bs => (a.toLower = b.toLower : Bool) && ciTakeEq as bs

/-- mLit lit consumes the literal lit, compared case-insensitively. -/
def mLit (lit : List Char) (s : List Char) : Option Nat :=
  if ciTakeEq lit s then some lit.length else none

/-- mDigits1 consumes a maximal non-empty run of ASCII digits.  In the
patterns below every digit run is followed by a non-digit literal, so the
greedy maximal run is the unique choice and no backtracking can occur. -/
def mDigits1 (s : List Char) : Option Nat :=
  let n := (s.takeWhile Char.isDigit).length
  if n = 0 then none else some n

/-- mWsRun consumes a maximal non-empty run of whitespace; this is the
whole pattern of the first substitution of clean_text, where greedy
matching is exact because nothing follows the run in the pattern. -/
def mWsRun (s : List Char) : Option Nat :=
  let n := (s.takeWhile isPySpace).length
  if n = 0 then none else some n

/-- Sequencing of matchers: the second starts where the first stopped. -/
def mSeq (m1 m2 : List Char → Option Nat) (s : List Char) : Option Nat :=
  match m1 s with
  | some n =>
    match m2 (s.drop n) with
    | some k => some (n + k)
    | none => none
  | none => none

/-- Lazy gap for the fragment .*? : a minimal run of characters other
than the newline, followed by a match of inner; the lazy quantifier tries
the shortest gap first, which the recursion reproduces. -/
def mLazyGap (inner : List Char → Option Nat) : List Char → Option Nat
  | [] => inner []
  | c :: t =>
    match inner (c :: t) with
    | some k => some k
    | none =>
      if c = '\n' then none else (mLazyGap inner t).map (fun g => g + 1)

/-- Matcher for the second substitution of clean_text, the pattern that
removes page footers of the form Page 3 of 17, under re.IGNORECASE. -/
def mPageOf : List Char → Option Nat :=
  mSeq (mLit "page ".data)
    (mSeq mDigits1 (mSeq (mLit " of ".data) mDigits1))

/-- Matcher for the third substitution of clean_text, the pattern that
removes headers of the form ANSYS ... Release 12.3, with a lazy gap that
cannot cross a newline, under re.IGNORECASE. -/
def mAnsysRelease : List Char → Option Nat :=
  mSeq (mLit "ansys".data)
    (mLazyGap (mSeq (mLit "release ".data)
      (mSeq mDigits1 (mSeq (mLit ".".data) mDigits1))))

/-- headNl s k holds when the character at offset k of s is a newline. -/
def headNl (s : List Char) (k : Nat) : Bool :=
  match s.drop k with
  | '\n' :: _ => true
  | _ => false

/-- Length of the maximal whitespace run at the head of s. -/
def wsRunLen (s : List Char) : Nat := (s.takeWhile isPySpace).length

/-- Backtracking search for the second whitespace gap of the triple
newline pattern: gap lengths are tried from k downwards, as the greedy
star does; a successful result counts the gap plus the closing newline. -/
def searchGap2 (s : List Char) : Nat → Option Nat
  | 0 => if headNl s 0 then some 1 else none
  | k + 1 => if headNl s (k + 1) then some (k + 2) else searchGap2 s k

/-- One candidate of the first gap of the triple newline pattern: a gap
of length k1 followed by a newline, then the tail of the pattern on the
remaining text; counts the gap, its newline and the tail. -/
def attemptTriple (t : List Char) (k1 : Nat) : Option Nat :=
  if headNl t k1 then
    (searchGap2 (t.drop (k1 + 1)) (wsRunLen (t.drop (k1 + 1)))).map
      (fun c2 => k1 + 1 + c2)
  else none

/-- Backtracking search for the first whitespace gap of the triple
newline pattern; candidate gaps are tried from k downwards, as the
greedy star does. -/
def searchGap1 (t : List Char) : Nat → Option Nat
  | 0 => attemptTriple t 0
  | k + 1 =>
    match attemptTriple t (k + 1) with
    | some r => some r
    | none => searchGap1 t k

/-- Matcher for the fourth substitution of clean_text: a newline, a
whitespace gap, a newline, a whitespace gap and a newline, with the
greedy gaps resolved by backtracking exactly as the re module does; gap
candidates never exceed the maximal whitespace run at their position. -/
def mTriple : List Char → Option Nat
  | [] => none
  | c :: t =>
    if c = '\n' then (searchGap1 t (wsRunLen t)).map (fun m => m + 1)
    else none

/-- Model of the _clean_text method of AnsysPDFExtractor: collapse
whitespace to single spaces, delete page footers, delete ANSYS release
headers, collapse triple newlines to double ones, then strip. -/
def clean_text (text : String) : String :=
  let t1 := subRun mWsRun " ".data text.data
  let t2 := subRun mPageOf [] t1
  let t3 := subRun mAnsysRelease [] t2
  let t4 := subRun mTriple "\n\n".data t3
  String.mk (pyStrip t4)

example : subRun mWsRun " ".data "a  b\n\nc".data = "a b c".data := by decide
example : subRun mPageOf [] "x Page 12 of 34 y".data = "x  y".data := by decide
example : subRun mPageOf [] "Page 12 of".data = "Page 12 of".data := by decide
example :
    subRun mAnsysRelease [] "see ANSYS Mechanical Release 25.1 now".data
      = "see  now".data := by decide
example : subRun mTriple "\n\n".data "a\n \n\t\nb".data = "a\n\nb".data := by
  decide
example : clean_text "  Page 3 of 9 hello   world " = "hello world" := by
  decide
example : clean_text "abc" = "abc" := by decide

/-! ## Length bounds for the substitution pass -/

theorem subRunGo_length_le (tryM : List Char → Option Nat) (repl : List Char)
    (hb : ∀ s n, tryM s = some n → repl.length ≤ n ∧ n ≤ s.length) :
    ∀ (s : List Char) (k : Nat), (subRunGo tryM repl s k).length ≤ s.length - k
  | [], k => by simp [subRunGo]
  | c :: t, k + 1 => by
    have ih := subRunGo_length_le tryM repl hb t k
    simp only [subRunGo, List.length_cons]
    omega
  | c :: t, 0 => by
    match h : tryM (c :: t) with
    | some n =>
      have ih := subRunGo_length_le tryM repl hb t (n - 1)
      have hbn := hb (c :: t) n h
      simp only [subRunGo, h, List.length_append, List.length_cons] at *
      omega
    | none =>
      have ih := subRunGo_length_le tryM repl hb t 0
      simp only [subRunGo, h, List.length_cons]
      omega

theorem subRun_length_le (tryM : List Char → Option Nat) (repl : List Char)
    (hb : ∀ s n, tryM s = some n → repl.length ≤ n ∧ n ≤ s.length)
    (s : List Char) : (subRun tryM repl s).length ≤ s.length := by
  have := subRunGo_length_le tryM repl hb s 0
  simpa [subRun] using this

theorem ciTakeEq_length : ∀ (lit s : List Char),
    ciTakeEq lit s = true → lit.length ≤ s.length
  | [], _, _ => by simp
  | _ :: _, [], h => by simp [ciTakeEq] at h
  | a :: as, b :: bs, h => by
    simp only [ciTakeEq, Bool.and_eq_true] at h
    have := ciTakeEq_length as bs h.2
    simp only [List.length_cons]
    omega

theorem mLit_bound (lit : List Char) (hlit : 1 ≤ lit.length) (s : List Char)
    (n : Nat) (h : mLit lit s = some n) : 1 ≤ n ∧ n ≤ s.length := by
  unfold mLit at h
  by_cases hc : ciTakeEq lit s = true
  · simp only [hc, if_true, Option.some.injEq] at h
    subst h
    exact ⟨hlit, ciTakeEq_length lit s hc⟩
  · simp [hc] at h

theorem mDigits1_bound (s : List Char) (n : Nat) (h : mDigits1 s = some n) :
    1 ≤ n ∧ n ≤ s.length := by
  unfold mDigits1 at h
  by_cases hz : (s.takeWhile Char.isDigit).length = 0
  · simp [hz] at h
  · simp only [hz, if_false, Option.some.injEq] at h
    subst h
    exact ⟨by omega, (List.takeWhile_sublist _).length_le⟩

theorem mWsRun_bound (s : List Char) (n : Nat) (h : mWsRun s = some n) :
    1 ≤ n ∧ n ≤ s.length := by
  unfold mWsRun at h
  by_cases hz : (s.takeWhile isPySpace).length = 0
  · simp [hz] at h
  · simp only [hz, if_false, Option.some.injEq] at h
    subst h
    exact ⟨by omega, (List.takeWhile_sublist _).length_le⟩

theorem mSeq_bound (m1 m2 : List Char → Option Nat)
    (h1 : ∀ s n, m1 s = some n → 1 ≤ n ∧ n ≤ s.length)
    (h2 : ∀ s n, m2 s = some n → n ≤ s.length)
    (s : List Char) (n : Nat) (h : mSeq m1 m2 s = some n) :
    1 ≤ n ∧ n ≤ s.length := by
  unfold mSeq at h
  split at h
  · rename_i a h1'
    split at h
    · rename_i b h2'
      simp only [Option.some.injEq] at h
      subst h
      have ha := h1 s a h1'
      have hb := h2 (s.drop a) b h2'
      rw [List.length_drop] at hb
      omega
    · exact absurd h (by simp)
  · exact absurd h (by simp)

theorem mSeq_le (m1 m2 : List Char → Option Nat)
    (h1 : ∀ s n, m1 s = some n → 1 ≤ n ∧ n ≤ s.length)
    (h2 : ∀ s n, m2 s = some n → n ≤ s.length)
    (s : List Char) (n : Nat) (h : mSeq m1 m2 s = some n) : n ≤ s.length :=
  (mSeq_bound m1 m2 h1 h2 s n h).2

theorem mLazyGap_bound (inner : List Char → Option Nat)
    (hi : ∀ s n, inner s = some n → 1 ≤ n ∧ n ≤ s.length) :
    ∀ (s : List Char) (n : Nat), mLazyGap inner s = some n →
      1 ≤ n ∧ n ≤ s.length
  | [], n, h => by
    simp only [mLazyGap] at h
    exact hi [] n h
  | c :: t, n, h => by
    simp only [mLazyGap] at h
    split at h
    · rename_i k h'
      simp only [Option.some.injEq] at h
      subst h
      exact hi (c :: t) k h'
    · by_cases hc : c = '\n'
      · simp [hc] at h
      · simp only [hc, if_false, Option.map_eq_some'] at h
        obtain ⟨g, hg, rfl⟩ := h
        have := mLazyGap_bound inner hi t g hg
        simp only [List.length_cons]
        omega

theorem mPageOf_bound (s : List Char) (n : Nat) (h : mPageOf s = some n) :
    1 ≤ n ∧ n ≤ s.length := by
  refine mSeq_bound _ _ (mLit_bound _ (by decide)) ?_ s n h
  intro s n h
  refine mSeq_le _ _ mDigits1_bound ?_ s n h
  intro s n h
  refine mSeq_le _ _ (mLit_bound _ (by decide)) ?_ s n h
  intro s n h
  exact (mDigits1_bound s n h).2

theorem mAnsysRelease_bound (s : List Char) (n : Nat)
    (h : mAnsysRelease s = some n) : 1 ≤ n ∧ n ≤ s.length := by
  refine mSeq_bound _ _ (mLit_bound _ (by decide)) ?_ s n h
  intro s n h
  refine (mLazyGap_bound _ ?_ s n h).2
  intro s n h
  refine mSeq_bound _ _ (mLit_bound _ (by decide)) ?_ s n h
  intro s n h
  refine mSeq_le _ _ mDigits1_bound ?_ s n h
  intro s n h
  refine mSeq_le _ _ (mLit_bound _ (by decide)) ?_ s n h
  intro s n h
  exact (mDigits1_bound s n h).2

theorem headNl_lt (s : List Char) (k : Nat) (h : headNl s k = true) :
    k < s.length := by
  unfold headNl at h
  match hd : s.drop k with
  | [] => rw [hd] at h; simp at h
  | c :: t =>
    have : (s.drop k).length = s.length - k := List.length_drop ..
    rw [hd] at this
    simp only [List.length_cons] at this
    omega

theorem searchGap2_bound (s : List Char) :
    ∀ (k c : Nat), searchGap2 s k = some c → 1 ≤ c ∧ c ≤ s.length
  | 0, c, h => by
    simp only [searchGap2] at h
    by_cases hh : headNl s 0 = true
    · simp only [hh, if_true, Option.some.injEq] at h
      subst h
      exact ⟨le_refl 1, headNl_lt s 0 hh⟩
    · simp [hh] at h
  | k + 1, c, h => by
    simp only [searchGap2] at h
    by_cases hh : headNl s (k + 1) = true
    · simp only [hh, if_true, Option.some.injEq] at h
      subst h
      have := headNl_lt s (k + 1) hh
      omega
    · simp only [hh, if_false] at h
      exact searchGap2_bound s k c h

theorem attemptTriple_bound (t : List Char) (k1 r : Nat)
    (h : attemptTriple t k1 = some r) : 1 ≤ r ∧ r ≤ t.length := by
  unfold attemptTriple at h
  by_cases hh : headNl t k1 = true
  · simp only [hh, if_true, Option.map_eq_some'] at h
    obtain ⟨c2, hc2, rfl⟩ := h
    have hk := headNl_lt t k1 hh
    have hb := searchGap2_bound (t.drop (k1 + 1)) _ c2 hc2
    rw [List.length_drop] at hb
    omega
  · simp [hh] at h

theorem searchGap1_bound (t : List Char) :
    ∀ (k r : Nat), searchGap1 t k = some r → 1 ≤ r ∧ r ≤ t.length
  | 0, r, h => by
    simp only [searchGap1] at h
    exact attemptTriple_bound t 0 r h
  | k + 1, r, h => by
    simp only [searchGap1] at h
    split at h
    · rename_i x ha
      simp only [Option.some.injEq] at h
      subst h
      exact attemptTriple_bound t (k + 1) x ha
    · exact searchGap1_bound t k r h

theorem mTriple_bound (s : List Char) (n : Nat) (h : mTriple s = some n) :
    2 ≤ n ∧ n ≤ s.length := by
  match s with
  | [] => simp [mTriple] at h
  | c :: t =>
    simp only [mTriple] at h
    by_cases hc : c = '\n'
    · simp only [hc, if_true, Option.map_eq_some'] at h
      obtain ⟨m, hm, rfl⟩ := h
      have := searchGap1_bound t _ m hm
      simp only [List.length_cons]
      omega
    · simp [hc] at h

theorem pyStrip_length_le (l : List Char) : (pyStrip l).length ≤ l.length := by
  unfold pyStrip
  calc ((l.dropWhile isPySpace).reverse.dropWhile isPySpace).reverse.length
      = ((l.dropWhile isPySpace).reverse.dropWhile isPySpace).length := by
        rw [List.length_reverse]
    _ ≤ (l.dropWhile isPySpace).reverse.length :=
        (List.dropWhile_sublist _).length_le
    _ = (l.dropWhile isPySpace).length := by rw [List.length_reverse]
    _ ≤ l.length := (List.dropWhile_sublist _).length_le

/-- C9: for every extracted input text, the length of the cleaned text
produced by the text cleaning step, the _clean_text method of
AnsysPDFExtractor, is less than or equal to the length of the original
raw text: every substitution replaces each match by a string no longer
than the match, and the final strip only removes characters. -/
theorem c9_clean_text_length_le (text : String) :
    (clean_text text).length ≤ text.length := by
  have hws : ∀ s n, mWsRun s = some n →
      (" ".data).length ≤ n ∧ n ≤ s.length := by
    intro s n h
    have h2 := mWsRun_bound s n h
    have e : (" ".data).length = 1 := rfl
    rw [e]
    exact h2
  have hpage : ∀ s n, mPageOf s = some n →
      ([] : List Char).length ≤ n ∧ n ≤ s.length := by
    intro s n h
    exact ⟨Nat.zero_le _, (mPageOf_bound s n h).2⟩
  have hansys : ∀ s n, mAnsysRelease s = some n →
      ([] : List Char).length ≤ n ∧ n ≤ s.length := by
    intro s n h
    exact ⟨Nat.zero_le _, (mAnsysRelease_bound s n h).2⟩
  have htriple : ∀ s n, mTriple s = some n →
      ("\n\n".data).length ≤ n ∧ n ≤ s.length := by
    intro s n h
    have h2 := mTriple_bound s n h
    have e : ("\n\n".data).length = 2 := rfl
    rw [e]
    exact h2
  have b1 := subRun_length_le _ _ hws text.data
  have b2 := subRun_length_le _ _ hpage (subRun mWsRun " ".data text.data)
  have b3 := subRun_length_le _ _ hansys
    (subRun mPageOf [] (subRun mWsRun " ".data text.data))
  have b4 := subRun_length_le _ _ htriple
    (subRun mAnsysRelease []
      (subRun mPageOf [] (subRun mWsRun " ".data text.data)))
  have b5 := pyStrip_length_le
    (subRun mTriple "\n\n".data
      (subRun mAnsysRelease []
        (subRun mPageOf [] (subRun mWsRun " ".data text.data))))
  have e5 : (clean_text text).length =
      (pyStrip (subRun mTriple "\n\n".data
        (subRun mAnsysRelease []
          (subRun mPageOf [] (subRun mWsRun " ".data text.data))))).length :=
    rfl
  have e6 : text.length = text.data.length := rfl
  rw [e5, e6]
  omega

/-! ## Corpus data model

The extracted corpus served by AnsysResourceLoader, as read from
pdf_extracted_content.json and the processed HTML file.  Dictionaries are
modelled as association lists in insertion order; the dictionary fields
that the loader reads with .get are modelled as total fields, matching
the documented shape of the extraction output. -/

structure Page where
  page_number : Int
  clean_text : String
deriving DecidableEq

structure SectionRef where
  title : String
  page : Int
deriving DecidableEq

structure Chapter where
  title : String
  start_page : Int
  sections : List SectionRef
deriving DecidableEq

structure PdfContent where
  pages : List Page
  chapters : List Chapter
deriving DecidableEq

/-- One entry of the content list of the processed PyMechanical HTML
documentation, as consumed by the HTML branch of search_content. -/
structure HtmlItem where
  content : String
  title : String
  file : String
deriving DecidableEq

/-- State of an AnsysResourceLoader after its caches are populated:
pdfs models get_pdf_data()["pdfs"] and html_content models
get_pymechanical_docs()["content"]. -/
structure Loader where
  pdfs : List (String × PdfContent)
  html_content : List HtmlItem
deriving DecidableEq

/-- Empty pdf entry, the default for a missing dictionary key. -/
def emptyPdf : PdfContent := { pages := [], chapters := [] }

/-- One entry of the results list built by search_content.  The type tag
field is named rtype because type is better avoided as a field name; it
holds the string pdf or html exactly as the source dict does.  Fields
absent from one of the two dict shapes are Option valued. -/
structure SearchResult where
  source : String
  rtype : String
  page : Option Int
  title : Option String
  file : Option String
  context : String
  relevance_score : ℚ
deriving DecidableEq

/-! ## Search and retrieval, from src/ansys_resource_loader.py -/

/-- Least index at which query matches text case-insensitively, the model
of re.search with an escaped pattern under re.IGNORECASE. -/
def ciFind (sub : List Char) : List Char → Option Nat
  | [] => if ciTakeEq sub [] then some 0 else none
  | c :: t =>
    if ciTakeEq sub (c :: t) then some 0
    else (ciFind sub t).map (fun i => i + 1)

/-- Model of the _extract_context method: a window of half the context
size on each side of the first case-insensitive occurrence of the query,
with ellipsis markers when clipped, stripped; if the query does not occur
verbatim, the first context_size characters instead. -/
def extract_context (text query : String) (context_size : Nat) : String :=
  match ciFind query.data text.data with
  | some i =>
    let mstart := i
    let mend := i + query.length
    let start := mstart - context_size / 2
    let stop := min text.length (mend + context_size / 2)
    let context := (text.data.drop start).take (stop - start)
    let context := if 0 < start then "...".data ++ context else context
    let context := if stop < text.length then context ++ "...".data else context
    String.mk (pyStrip context)
  | none =>
    if context_size < text.length then
      String.mk (text.data.take context_size) ++ "..."
    else text

/-- Model of the _calculate_relevance method; Python float division is
modelled as exact division in the rationals, with the same integer
numerator and denominator. -/
def calculate_relevance (text query : String) : ℚ :=
  let text_lower := pyLower text
  let query_lower := pyLower query
  let exact_matches := pyCountStr text_lower query_lower
  let query_words := pySplit query_lower.data
  let word_matches := (query_words.map (fun w => pyCount text_lower.data w)).sum
  ((exact_matches * 2 + word_matches : Nat) : ℚ) /
    (((pySplit text.data).length + 1 : Nat) : ℚ)

/-- The search result dict built for a matching pdf page. -/
def mkPdfResult (pdf_name query_lower : String) (page : Page) : SearchResult :=
  { source := pdf_name
    rtype := "pdf"
    page := some page.page_number
    title := none
    file := none
    context := extract_context page.clean_text query_lower 300
    relevance_score := calculate_relevance page.clean_text query_lower }

/-- The search result dict built for a matching HTML item. -/
def mkHtmlResult (query_lower : String) (item : HtmlItem) : SearchResult :=
  { source := "PyMechanical Docs"
    rtype := "html"
    page := none
    title := some item.title
    file := some item.file
    context := extract_context item.content query_lower 300
    relevance_score :=
      calculate_relevance (item.content ++ " " ++ item.title) query_lower }

/-- Results contributed by the pdf loop of search_content: one per page
whose lowercased clean_text contains the lowercased query. -/
def pdfHits (ldr : Loader) (query_lower : String) : List SearchResult :=
  (ldr.pdfs.map (fun pr =>
    pr.2.pages.filterMap (fun page =>
      if pyInStr query_lower (pyLower page.clean_text) then
        some (mkPdfResult pr.1 query_lower page)
      else none))).flatten

/-- Results contributed by the HTML loop of search_content: one per item
whose lowercased content or title contains the lowercased query. -/
def htmlHits (ldr : Loader) (query_lower : String) : List SearchResult :=
  ldr.html_content.filterMap (fun item =>
    if pyInStr query_lower (pyLower item.content) ||
        pyInStr query_lower (pyLower item.title) then
      some (mkHtmlResult query_lower item)
    else none)

/-- All results collected by search_content before sorting, in corpus
iteration order: pdf entries in dictionary order with their pages in
order, then HTML items in order. -/
def searchHits (ldr : Loader) (query_lower : String) : List SearchResult :=
  pdfHits ldr query_lower ++ htmlHits ldr query_lower

/-- Comparison used to model list.sort with key relevance_score and
reverse set: a may precede b exactly when its score is not smaller.
Python sorting is stable, so it coincides with stable merge sort under
this total preorder. -/
def resultLE (a b : SearchResult) : Bool :=
  decide (b.relevance_score ≤ a.relevance_score)

/-- Model of the search_content method: collect matching pages and HTML
items, sort by relevance descending with a stable sort, and truncate with
the Python slice to max_results entries (the source default is 10). -/
def search_content (ldr : Loader) (query : String) (max_results : Int) :
    List SearchResult :=
  let query_lower := pyLower query
  pySliceTo max_results ((searchHits ldr query_lower).mergeSort resultLE)

/-! ## Chapter retrieval, from src/ansys_resource_loader.py -/

/-- Dict returned by get_pdf_content_by_chapter on a title match. -/
structure ChapterContent where
  title : String
  start_page : Int
  end_page : Int
  content : String
  sections : List SectionRef
deriving DecidableEq

/-- The match test of the chapter loop: the lowercased fragment is a
substring of the lowercased chapter title. -/
def titleMatch (chapter_title : String) (c : Chapter) : Bool :=
  pyInStr (pyLower chapter_title) (pyLower c.title)

/-- The start page of the chapter following c, if the chapters list has
an entry after the first entry equal to c; current_idx models
chapters.index(chapter), the position of the first equal entry, and a
missing successor yields none, the Python None. -/
def nextChapterPage (pc : PdfContent) (c : Chapter) : Option Int :=
  match pc.chapters[pyIndex pc.chapters c + 1]? with
  | some ch => some ch.start_page
  | none => none

/-- The pages collected by the chapter loop body: pages from start_page
on, then cut before the next start page when that value is truthy, that
is, neither None nor zero. -/
def chapterPages (pc : PdfContent) (c : Chapter) : List Page :=
  let base := pc.pages.filter (fun p => c.start_page ≤ p.page_number)
  match nextChapterPage pc c with
  | some v => if v ≠ 0 then base.filter (fun p => p.page_number < v) else base
  | none => base

/-- The end_page field of the returned dict: the next start page minus
one when truthy, the number of pages of the document otherwise. -/
def resolvedEndPage (pc : PdfContent) (c : Chapter) : Int :=
  match nextChapterPage pc c with
  | some v => if v ≠ 0 then v - 1 else (pc.pages.length : Int)
  | none => (pc.pages.length : Int)

/-- Body of the chapter loop on a title match: the dict built from the
matched chapter, with the page texts joined by single newlines. -/
def buildChapterContent (pc : PdfContent) (c : Chapter) : ChapterContent :=
  { title := c.title
    start_page := c.start_page
    end_page := resolvedEndPage pc c
    content :=
      String.intercalate "\n" ((chapterPages pc c).map (fun p => p.clean_text))
    sections := c.sections }

/-- The for loop of get_pdf_content_by_chapter: first chapter whose title
contains the fragment wins; no match yields the empty dict, modelled as
none. -/
def chapterLoop (pc : PdfContent) (chapter_title : String) :
    List Chapter → Option ChapterContent
  | [] => none
  | c :: rest =>
    if titleMatch chapter_title c then some (buildChapterContent pc c)
    else chapterLoop pc chapter_title rest

/-- Model of the get_pdf_content_by_chapter method. -/
def get_pdf_content_by_chapter (ldr : Loader) (pdf_name chapter_title : String) :
    Option ChapterContent :=
  let pdf_content := (List.lookup pdf_name ldr.pdfs).getD emptyPdf
  chapterLoop pdf_content chapter_title pdf_content.chapters

/-- Model of the get_pdf_chapters method. -/
def get_pdf_chapters (ldr : Loader) (pdf_name : String) : List Chapter :=
  ((List.lookup pdf_name ldr.pdfs).getD emptyPdf).chapters

/-! ## The chapter tool of src/server_http.py -/

/-- A single quote character, used by the not-found message. -/
def squote : String := String.mk [Char.ofNat 39]

/-- Model of the get_chapter_content tool of server_http.py: on a falsy
lookup result it renders the not-found message listing every available
chapter title; otherwise it renders the chapter header and the content,
truncated beyond 5000 characters. -/
def get_chapter_content (ldr : Loader) (pdf_name chapter_title : String) :
    String :=
  match get_pdf_content_by_chapter ldr pdf_name chapter_title with
  | none =>
    let available_chapters := get_pdf_chapters ldr pdf_name
    let chapter_list :=
      String.intercalate "\n"
        (available_chapters.map (fun ch => "- " ++ ch.title))
    "Chapter " ++ squote ++ chapter_title ++ squote ++ " not found in " ++
      pdf_name ++ ".\n\nAvailable chapters:\n" ++ chapter_list
  | some cc =>
    let output := "# " ++ cc.title ++ "\n\n" ++ "**Source**: " ++ pdf_name ++
      "\n" ++ "**Pages**: " ++ toString cc.start_page ++ " - " ++
      toString cc.end_page ++ "\n\n"
    let content := cc.content
    if 5000 < content.length then
      output ++ String.mk (content.data.take 5000) ++
        "\n\n*[Content truncated - use search for specific topics]*"
    else output ++ content

example :
    extract_context "abcdefghij MESH klmnopqrst" "mesh" 10
      = "...ghij MESH klmn..." := by decide
example : extract_context "  hello  " "ell" 300 = "hello" := by decide
example : extract_context "0123456789" "zz" 4 = "0123..." := by decide
example :
    calculate_relevance "Mesh generation basics on page two" "mesh generation"
      = 4 / 7 := by
  have h1 : pyCountStr (pyLower "Mesh generation basics on page two")
      (pyLower "mesh generation") = 1 := by decide
  have h2 : (List.map
      (fun w => pyCount (pyLower "Mesh generation basics on page two").data w)
      (pySplit (pyLower "mesh generation").data)).sum = 2 := by decide
  have h3 : (pySplit "Mesh generation basics on page two".data).length = 6 := by
    decide
  simp only [calculate_relevance]
  rw [h1, h2, h3]
  norm_num
example : calculate_relevance "a a" "a" = 2 := by
  have h1 : pyCountStr (pyLower "a a") (pyLower "a") = 2 := by decide
  have h2 : (List.map (fun w => pyCount (pyLower "a a").data w)
      (pySplit (pyLower "a").data)).sum = 2 := by decide
  have h3 : (pySplit "a a".data).length = 2 := by decide
  simp only [calculate_relevance]
  rw [h1, h2, h3]
  norm_num
example : calculate_relevance "hello world" "" = 8 := by
  have h1 : pyCountStr (pyLower "hello world") (pyLower "") = 12 := by decide
  have h2 : (List.map (fun w => pyCount (pyLower "hello world").data w)
      (pySplit (pyLower "").data)).sum = 0 := by decide
  have h3 : (pySplit "hello world".data).length = 2 := by decide
  simp only [calculate_relevance]
  rw [h1, h2, h3]
  norm_num

/-! ## The documented scoring contract (spec formulation, C1)

The specification states the score as
(2 * exact_count + word_count) / (word_count_of_page_text + 1).  The
spec-side quantities below are defined through the greedy left to right
decomposition into non-overlapping occurrences, a formulation independent
of the scanning counter used by the Python count model above. -/

/-- Start positions of the greedy non-overlapping occurrences of sub in
the remaining text; i is the absolute index of the head of the remaining
text and the last argument is the number of positions still covered by
the previous occurrence.  An occurrence of the empty pattern is counted
at every position including the end of the text. -/
def occStartsGo (sub : List Char) : List Char → Nat → Nat → List Nat
  | [], i, _ => if sub.isEmpty then [i] else []
  | _ :: t, i, k + 1 => occStartsGo sub t (i + 1) k
  | c :: t, i, 0 =>
    if takeEq sub (c :: t) then
      i :: occStartsGo sub t (i + 1) (max 1 sub.length - 1)
    else occStartsGo sub t (i + 1) 0

/-- Start positions of the greedy non-overlapping occurrences of sub in
s, from the beginning. -/
def occStarts (sub s : List Char) : List Nat := occStartsGo sub s 0 0

theorem occStartsGo_length_of_ne (sub : List Char) (hsub : sub ≠ []) :
    ∀ (s : List Char) (i k : Nat),
      (occStartsGo sub s i k).length = countSkip sub s k
  | [], i, k => by
    have : sub.isEmpty = false := by
      cases sub with
      | nil => exact absurd rfl hsub
      | cons a t => rfl
    simp [occStartsGo, countSkip, this]
  | _ :: t, i, k + 1 => by
    simp only [occStartsGo, countSkip]
    exact occStartsGo_length_of_ne sub hsub t (i + 1) k
  | c :: t, i, 0 => by
    simp only [occStartsGo, countSkip]
    by_cases hm : takeEq sub (c :: t) = true
    · have hmax : max 1 sub.length = sub.length := by
        have : 1 ≤ sub.length := by
          cases sub with
          | nil => exact absurd rfl hsub
          | cons a t => simp
        omega
      simp only [hm, if_true, List.length_cons, hmax]
      rw [occStartsGo_length_of_ne sub hsub t (i + 1) (sub.length - 1)]
      omega
    · simp only [hm, if_false]
      exact occStartsGo_length_of_ne sub hsub t (i + 1) 0

theorem occStartsGo_length_nil :
    ∀ (s : List Char) (i : Nat), (occStartsGo [] s i 0).length = s.length + 1
  | [], i => by simp [occStartsGo]
  | c :: t, i => by
    have hcond : takeEq [] (c :: t) = true := by simp [takeEq]
    have hmax : 1 ⊔ ([] : List Char).length - 1 = 0 := by simp
    simp only [occStartsGo, hcond, if_true, List.length_cons, hmax]
    rw [occStartsGo_length_nil t (i + 1)]

/-- The greedy decomposition has exactly as many occurrences as the
Python count. -/
theorem occStarts_length (sub s : List Char) :
    (occStarts sub s).length = pyCount s sub := by
  unfold occStarts pyCount
  cases sub with
  | nil =>
    simp only [List.isEmpty_nil, if_true]
    exact occStartsGo_length_nil s 0
  | cons a t =>
    have hne : a :: t ≠ [] := by simp
    simp only [List.isEmpty_cons, if_false]
    exact occStartsGo_length_of_ne (a :: t) hne s 0 0

/-- Spec formulation: the number of non-overlapping occurrences of the
full lowercased query string in the lowercased text, as the number of
start positions of the greedy left to right decomposition. -/
def specExactCount (text query : String) : Nat :=
  (occStarts (pyLower query).data (pyLower text).data).length

/-- Spec formulation: the sum over the whitespace-separated tokens of the
query of their occurrence counts in the lowercased text, tokens counted
independently. -/
def specWordCount (text query : String) : Nat :=
  ((pySplit (pyLower query).data).map
    (fun w => (occStarts w (pyLower text).data).length)).sum

/-- Spec formulation: the whitespace-token count of the searched text. -/
def specTokenCount (text : String) : Nat := (pySplit text.data).length

/-- Spec formulation of the documented scoring contract of the search
engine. -/
def specRelevanceScore (text query : String) : ℚ :=
  (2 * (specExactCount text query : ℚ) + (specWordCount text query : ℚ)) /
    ((specTokenCount text : ℚ) + 1)

/-- C1: for every query and every searched text, the relevance score
computed by search through _calculate_relevance is exactly
(2 * exact_count + word_count) / (word_count_of_page_text + 1), where
exact_count is the number of non-overlapping occurrences of the full
lowercased query string in the text, word_count is the sum over the
whitespace-separated query tokens of their occurrence counts in the text,
and word_count_of_page_text is the whitespace-token count of the text.
Occurrences are counted case-insensitively, both sides lowercased, and
Python float division is modelled as exact rational division. -/
theorem c1_relevance_formula (text query : String) :
    calculate_relevance text query = specRelevanceScore text query := by
  have hfun :
      (fun w => (occStarts w (pyLower text).data).length)
        = fun w => pyCount (pyLower text).data w := by
    funext w
    exact occStarts_length w (pyLower text).data
  simp only [calculate_relevance, specRelevanceScore, specExactCount,
    specWordCount, specTokenCount, pyCountStr, hfun, occStarts_length]
  push_cast
  ring

/-! ## Helper lemmas for the chapter lookup -/

theorem pySubstr_nil : ∀ (l : List Char), pySubstr [] l = true
  | [] => rfl
  | c :: t => by simp [pySubstr, takeEq]

theorem titleMatch_empty (c : Chapter) : titleMatch "" c = true := by
  have h : (pyLower "").data = [] := rfl
  simp only [titleMatch, pyInStr, h]
  exact pySubstr_nil _

theorem chapterLoop_eq_find (pc : PdfContent) (frag : String) :
    ∀ l : List Chapter,
      chapterLoop pc frag l =
        (l.find? (titleMatch frag)).map (buildChapterContent pc)
  | [] => rfl
  | c :: rest => by
    simp only [chapterLoop, List.find?]
    by_cases h : titleMatch frag c = true
    · simp [h]
    · simp [h, chapterLoop_eq_find pc frag rest]

theorem pyIndex_eq_findIdx (frag : String) :
    ∀ (l : List Chapter) (c : Chapter), l.find? (titleMatch frag) = some c →
      pyIndex l c = l.findIdx (titleMatch frag)
  | [], c, h => by simp [List.find?] at h
  | a :: rest, c, h => by
    by_cases hm : titleMatch frag a = true
    · have hc : c = a := by
        simp only [List.find?, hm] at h
        exact (Option.some.injEq ..).mp h.symm
      subst hc
      simp [pyIndex, List.findIdx_cons, hm]
    · have hrest : rest.find? (titleMatch frag) = some c := by
        simpa only [List.find?, hm] using h
      have hne : ¬(a = c) := by
        intro he
        have := List.find?_some hrest
        rw [← he] at this
        exact hm this
      have ih := pyIndex_eq_findIdx frag rest c hrest
      simp only [pyIndex, List.findIdx_cons, hm] at *
      have hd : (decide (a = c)) = false := by
        simp [hne]
      simp [hd, ih]

theorem gp_some (ldr : Loader) (name frag : String) (pc : PdfContent)
    (hpc : List.lookup name ldr.pdfs = some pc) (cc : ChapterContent)
    (hres : get_pdf_content_by_chapter ldr name frag = some cc) :
    ∃ c, pc.chapters.find? (titleMatch frag) = some c ∧
      cc = buildChapterContent pc c := by
  unfold get_pdf_content_by_chapter at hres
  rw [hpc] at hres
  simp only [Option.getD_some] at hres
  rw [chapterLoop_eq_find] at hres
  rw [Option.map_eq_some'] at hres
  obtain ⟨c, hc, he⟩ := hres
  exact ⟨c, hc, he.symm⟩

/-! ## Claims C7, C8 and C10: chapter lookup behavior -/

/-- C7: for every document and chapter-title fragment, get_chapter, the
get_pdf_content_by_chapter method, performs a case-insensitive substring
match of the fragment against each chapter title in chapter order and
returns the first matching chapter, not a best match; consequently an
empty fragment resolves to the first chapter whenever one exists, since
the empty string is a substring of every title. -/
theorem c7_first_match (ldr : Loader) (name frag : String) (pc : PdfContent)
    (hpc : List.lookup name ldr.pdfs = some pc) :
    get_pdf_content_by_chapter ldr name frag =
      (pc.chapters.find? (titleMatch frag)).map (buildChapterContent pc) ∧
    get_pdf_content_by_chapter ldr name "" =
      pc.chapters.head?.map (buildChapterContent pc) := by
  constructor
  · unfold get_pdf_content_by_chapter
    rw [hpc]
    simp only [Option.getD_some]
    exact chapterLoop_eq_find pc frag pc.chapters
  · unfold get_pdf_content_by_chapter
    rw [hpc]
    simp only [Option.getD_some]
    rw [chapterLoop_eq_find pc "" pc.chapters]
    cases pc.chapters with
    | nil => rfl
    | cons c rest =>
      simp [List.find?, titleMatch_empty c]

/-- C8: for every document and every fragment contained in no chapter
title of that document, the chapter lookup fails, returning the empty
dict modelled as none, and the caller-facing response rendered by
get_chapter_content surfaces the full ordered list of the available
chapter titles of that document as suggestions. -/
theorem c8_unknown_chapter (ldr : Loader) (name frag : String)
    (pc : PdfContent) (hpc : List.lookup name ldr.pdfs = some pc)
    (hnone : ∀ c ∈ pc.chapters, titleMatch frag c = false) :
    get_pdf_content_by_chapter ldr name frag = none ∧
    get_chapter_content ldr name frag =
      "Chapter " ++ squote ++ frag ++ squote ++ " not found in " ++ name ++
        ".\n\nAvailable chapters:\n" ++
        String.intercalate "\n"
          (pc.chapters.map (fun ch => "- " ++ ch.title)) := by
  have h1 : get_pdf_content_by_chapter ldr name frag = none := by
    unfold get_pdf_content_by_chapter
    rw [hpc]
    simp only [Option.getD_some]
    rw [chapterLoop_eq_find pc frag pc.chapters]
    have : pc.chapters.find? (titleMatch frag) = none := by
      rw [List.find?_eq_none]
      intro x hx
      simp [hnone x hx]
    rw [this]
    rfl
  refine ⟨h1, ?_⟩
  unfold get_chapter_content
  rw [h1]
  unfold get_pdf_chapters
  rw [hpc]
  rfl

/-- C10: for every document identifier not present in the loaded corpus,
get_pdf_content_by_chapter returns the same empty result, modelled as
none, that an unmatched fragment produces, and get_pdf_chapters returns
the empty list; both functions are total, so neither raises. -/
theorem c10_unknown_document (ldr : Loader) (name frag : String)
    (hmiss : List.lookup name ldr.pdfs = none) :
    get_pdf_content_by_chapter ldr name frag = none ∧
    get_pdf_chapters ldr name = [] := by
  unfold get_pdf_content_by_chapter get_pdf_chapters
  rw [hmiss]
  exact ⟨rfl, rfl⟩

/-! ## Concrete corpus used by the witnesses -/

/-- Ten pages named p1 to p10 and two chapters, as in scenario B of the
specification. -/
def exGuide : PdfContent :=
  { pages :=
      [ { page_number := 1, clean_text := "p1" }
      , { page_number := 2, clean_text := "p2" }
      , { page_number := 3, clean_text := "p3" }
      , { page_number := 4, clean_text := "p4" }
      , { page_number := 5, clean_text := "p5" }
      , { page_number := 6, clean_text := "p6" }
      , { page_number := 7, clean_text := "p7" }
      , { page_number := 8, clean_text := "p8" }
      , { page_number := 9, clean_text := "p9" }
      , { page_number := 10, clean_text := "p10" } ]
    chapters :=
      [ { title := "Intro", start_page := 1, sections := [] }
      , { title := "Meshing", start_page := 5, sections := [] } ] }

/-- A loader whose corpus holds the single document guide.pdf. -/
def exLoader : Loader :=
  { pdfs := [("guide.pdf", exGuide)], html_content := [] }

/-- Witness for C7: the first-match contract instantiated on the
concrete corpus, with the fragment mesh. -/
theorem c7_first_match_witness :
    get_pdf_content_by_chapter exLoader "guide.pdf" "mesh" =
      (exGuide.chapters.find? (titleMatch "mesh")).map
        (buildChapterContent exGuide) ∧
    get_pdf_content_by_chapter exLoader "guide.pdf" "" =
      exGuide.chapters.head?.map (buildChapterContent exGuide) :=
  c7_first_match exLoader "guide.pdf" "mesh" exGuide (by decide)

/-- Witness for C8: the lookup of a fragment matching no chapter on the
concrete corpus fails and lists both chapter titles. -/
theorem c8_unknown_chapter_witness :
    get_pdf_content_by_chapter exLoader "guide.pdf" "nonexistent" = none ∧
    get_chapter_content exLoader "guide.pdf" "nonexistent" =
      "Chapter " ++ squote ++ "nonexistent" ++ squote ++ " not found in " ++
        "guide.pdf" ++ ".\n\nAvailable chapters:\n" ++
        String.intercalate "\n"
          (exGuide.chapters.map (fun ch => "- " ++ ch.title)) :=
  c8_unknown_chapter exLoader "guide.pdf" "nonexistent" exGuide (by decide)
    (by decide)

/-- Witness for C10: a document identifier absent from the corpus. -/
theorem c10_unknown_document_witness :
    get_pdf_content_by_chapter exLoader "missing.pdf" "intro" = none ∧
    get_pdf_chapters exLoader "missing.pdf" = [] :=
  c10_unknown_document exLoader "missing.pdf" "intro" (by decide)

example :
    get_pdf_content_by_chapter exLoader "guide.pdf" "mesh" =
      some { title := "Meshing", start_page := 5, end_page := 10
           , content := "p5\np6\np7\np8\np9\np10", sections := [] } := by
  decide
example :
    get_pdf_content_by_chapter exLoader "guide.pdf" "" =
      some { title := "Intro", start_page := 1, end_page := 4
           , content := "p1\np2\np3\np4", sections := [] } := by decide
example : get_pdf_content_by_chapter exLoader "guide.pdf" "zzz" = none := by
  decide

/-! ## Claims C4 and C5: page ranges of a resolved chapter

Both claims are stated for documents satisfying the Document invariant of
the data model: page numbers increase by one from 1 in page order, and
chapter start pages are at least 1.  The hypotheses below express exactly
that invariant. -/

theorem page_number_le_length (pc : PdfContent)
    (hpages : ∀ i : Fin pc.pages.length,
      (pc.pages.get i).page_number = ((i : Nat) : Int) + 1) :
    ∀ p ∈ pc.pages, p.page_number ≤ (pc.pages.length : Int) := by
  intro p hp
  obtain ⟨i, hi⟩ := List.mem_iff_get.mp hp
  rw [← hi, hpages i]
  have hlt : (i : Nat) < pc.pages.length := i.isLt
  omega

theorem pages_pairwise (pc : PdfContent)
    (hpages : ∀ i : Fin pc.pages.length,
      (pc.pages.get i).page_number = ((i : Nat) : Int) + 1) :
    List.Pairwise (fun a b : Page => a.page_number < b.page_number)
      pc.pages := by
  rw [List.pairwise_iff_get]
  intro i j hij
  rw [hpages i, hpages j]
  have hlt : (i : Nat) < (j : Nat) := hij
  omega

theorem nextChapterPage_mem (pc : PdfContent) (c : Chapter) (v : Int)
    (h : nextChapterPage pc c = some v) :
    ∃ ch ∈ pc.chapters, ch.start_page = v := by
  unfold nextChapterPage at h
  split at h
  · rename_i ch hch
    simp only [Option.some.injEq] at h
    exact ⟨ch, List.getElem?_mem hch, h⟩
  · exact absurd h (by simp)

theorem chapterPages_eq_range (pc : PdfContent) (c : Chapter)
    (hpages : ∀ i : Fin pc.pages.length,
      (pc.pages.get i).page_number = ((i : Nat) : Int) + 1)
    (hch : ∀ ch ∈ pc.chapters, 1 ≤ ch.start_page) :
    chapterPages pc c =
      pc.pages.filter (fun p =>
        decide (c.start_page ≤ p.page_number ∧
          p.page_number ≤ resolvedEndPage pc c)) := by
  unfold chapterPages resolvedEndPage
  cases hnext : nextChapterPage pc c with
  | some v =>
    obtain ⟨ch, hmem, hv⟩ := nextChapterPage_mem pc c v hnext
    have hv1 : 1 ≤ v := hv ▸ hch ch hmem
    have hvne : v ≠ 0 := by omega
    simp only [hnext, hvne, if_true, ne_eq, not_false_eq_true]
    rw [List.filter_filter]
    apply List.filter_congr
    intro p hp
    rw [← Bool.decide_and]
    rw [decide_eq_decide]
    omega
  | none =>
    simp only [hnext]
    apply List.filter_congr
    intro p hp
    have hle := page_number_le_length pc hpages p hp
    rw [decide_eq_decide]
    omega

/-- C4: for every document satisfying the Document invariant and every
fragment resolved by the chapter lookup, the returned content equals
exactly the newline-joined clean_text of all pages whose page number lies
in the inclusive range from start_page to end_page, pages selected by
their number field and concatenated in strictly increasing page-number
order, with no further transformation. -/
theorem c4_round_trip (ldr : Loader) (name frag : String) (pc : PdfContent)
    (hpc : List.lookup name ldr.pdfs = some pc)
    (hpages : ∀ i : Fin pc.pages.length,
      (pc.pages.get i).page_number = ((i : Nat) : Int) + 1)
    (hch : ∀ ch ∈ pc.chapters, 1 ≤ ch.start_page)
    (cc : ChapterContent)
    (hres : get_pdf_content_by_chapter ldr name frag = some cc) :
    cc.content = String.intercalate "\n"
      ((pc.pages.filter (fun p =>
        decide (cc.start_page ≤ p.page_number ∧
          p.page_number ≤ cc.end_page))).map (fun p => p.clean_text)) ∧
    List.Pairwise (fun a b : Page => a.page_number < b.page_number)
      (pc.pages.filter (fun p =>
        decide (cc.start_page ≤ p.page_number ∧
          p.page_number ≤ cc.end_page))) := by
  obtain ⟨c, hfind, hcc⟩ := gp_some ldr name frag pc hpc cc hres
  subst hcc
  have hsel := chapterPages_eq_range pc c hpages hch
  constructor
  · show String.intercalate "\n"
      ((chapterPages pc c).map (fun p => p.clean_text)) = _
    rw [hsel]
    rfl
  · exact List.Pairwise.sublist (List.filter_sublist _)
      (pages_pairwise pc hpages)

/-- C5: for every document satisfying the Document invariant, the
resolved end_page of a matched chapter equals the next chapter start page
minus one when a next chapter exists, and the last page number of the
document when the matched chapter is the last one. -/
theorem c5_end_page (ldr : Loader) (name frag : String) (pc : PdfContent)
    (hpc : List.lookup name ldr.pdfs = some pc)
    (hpages : ∀ i : Fin pc.pages.length,
      (pc.pages.get i).page_number = ((i : Nat) : Int) + 1)
    (hne : pc.pages ≠ [])
    (hch : ∀ ch ∈ pc.chapters, 1 ≤ ch.start_page)
    (cc : ChapterContent)
    (hres : get_pdf_content_by_chapter ldr name frag = some cc) :
    cc.end_page =
      match pc.chapters[pc.chapters.findIdx (titleMatch frag) + 1]? with
      | some c2 => c2.start_page - 1
      | none => (pc.pages.getLast hne).page_number := by
  obtain ⟨c, hfind, hcc⟩ := gp_some ldr name frag pc hpc cc hres
  subst hcc
  have hidx := pyIndex_eq_findIdx frag pc.chapters c hfind
  show resolvedEndPage pc c = _
  unfold resolvedEndPage nextChapterPage
  rw [hidx]
  cases hnext : pc.chapters[pc.chapters.findIdx (titleMatch frag) + 1]? with
  | some c2 =>
    have hmem := List.getElem?_mem hnext
    have h1 : 1 ≤ c2.start_page := hch c2 hmem
    have hne0 : c2.start_page ≠ 0 := by omega
    simp [hne0]
  | none =>
    simp only
    have hlen : 0 < pc.pages.length := List.length_pos.mpr hne
    rw [List.getLast_eq_get]
    rw [hpages]
    show (pc.pages.length : Int) = ((pc.pages.length - 1 : Nat) : Int) + 1
    omega

/-- The chapter dict resolved for the fragment mesh on the concrete
corpus. -/
def exMeshCC : ChapterContent :=
  { title := "Meshing", start_page := 5, end_page := 10
  , content := "p5\np6\np7\np8\np9\np10", sections := [] }

/-- Witness for C4: the round trip instantiated on the concrete corpus
with the fragment mesh, which resolves to pages 5 to 10. -/
theorem c4_round_trip_witness :
    exMeshCC.content = String.intercalate "\n"
      ((exGuide.pages.filter (fun p =>
        decide (exMeshCC.start_page ≤ p.page_number ∧
          p.page_number ≤ exMeshCC.end_page))).map (fun p => p.clean_text)) ∧
    List.Pairwise (fun a b : Page => a.page_number < b.page_number)
      (exGuide.pages.filter (fun p =>
        decide (exMeshCC.start_page ≤ p.page_number ∧
          p.page_number ≤ exMeshCC.end_page))) :=
  c4_round_trip exLoader "guide.pdf" "mesh" exGuide (by decide) (by decide)
    (by decide) exMeshCC (by decide)

/-- The chapter dict resolved for the fragment intro on the concrete
corpus. -/
def exIntroCC : ChapterContent :=
  { title := "Intro", start_page := 1, end_page := 4
  , content := "p1\np2\np3\np4", sections := [] }

/-- Witness for C5: the end page contract instantiated on the concrete
corpus with the fragment intro, whose next chapter starts at page 5. -/
theorem c5_end_page_witness :
    exIntroCC.end_page =
      match exGuide.chapters[exGuide.chapters.findIdx
          (titleMatch "intro") + 1]? with
      | some c2 => c2.start_page - 1
      | none => (exGuide.pages.getLast (by decide)).page_number :=
  c5_end_page exLoader "guide.pdf" "intro" exGuide (by decide) (by decide)
    (by decide) (by decide) exIntroCC (by decide)

/-! ## Claims C2, C3 and C6: the search pipeline -/

theorem filterMap_if_eq_map_filter {α β : Type} (p : α → Bool) (f : α → β) :
    ∀ l : List α,
      (l.filterMap (fun a => if p a then some (f a) else none))
        = (l.filter p).map f
  | [] => rfl
  | a :: t => by
    by_cases h : p a = true
    · simp [List.filterMap_cons, List.filter_cons, h,
        filterMap_if_eq_map_filter p f t]
    · simp [List.filterMap_cons, List.filter_cons, h,
        filterMap_if_eq_map_filter p f t]

/-- C2 amended: for every query, a page contributes a SearchResult if
and only if the full lowercased query string occurs as a substring of its
lowercased clean_text; a page containing some individual query words but
not the full query string as a substring is skipped.  The pdf hit list
is exactly the per-document filter by that substring test, in corpus
order. -/
theorem c2_page_inclusion (ldr : Loader) (query_lower : String) :
    pdfHits ldr query_lower =
      (ldr.pdfs.map (fun pr =>
        (pr.2.pages.filter (fun page =>
          pyInStr query_lower (pyLower page.clean_text))).map
          (mkPdfResult pr.1 query_lower))).flatten := by
  unfold pdfHits
  congr 1
  apply List.map_congr_left
  intro pr _
  exact filterMap_if_eq_map_filter _ _ pr.2.pages

/-- The corpus of the counterexample to C2: a single page that contains
both query words but not the full query string. -/
def exC2Loader : Loader :=
  { pdfs := [("guide.pdf",
      { pages := [{ page_number := 2, clean_text := "mesh basics generation" }]
      , chapters := [] })]
  , html_content := [] }

/-- Counterexample for C2 as stated: on the corpus above, the page has
word_count two, which is non-zero, yet search returns no result at all
for the query mesh generation, because the code only admits pages that
contain the full query string as a substring. -/
theorem c2_counterexample :
    search_content exC2Loader "mesh generation" 10 = [] ∧
    specWordCount "mesh basics generation" "mesh generation" = 2 := by
  constructor
  · show pySliceTo 10
      ((searchHits exC2Loader (pyLower "mesh generation")).mergeSort resultLE)
        = []
    have h : searchHits exC2Loader (pyLower "mesh generation") = [] := by
      decide
    rw [h, List.mergeSort_nil]
    rfl
  · decide

/-- The corpus of the counterexample to C6: one page of text. -/
def exC6Loader : Loader :=
  { pdfs := [("guide.pdf",
      { pages := [{ page_number := 1, clean_text := "hello world" }]
      , chapters := [] })]
  , html_content := [] }

/-- Counterexample for C6 as stated: search performs no query
validation, so the empty query is processed like any other and returns
one result on this corpus instead of an InvalidQuery rejection. -/
theorem c6_counterexample : (search_content exC6Loader "" 5).length = 1 := by
  have h : searchHits exC6Loader (pyLower "") =
      [mkPdfResult "guide.pdf" (pyLower "")
        { page_number := 1, clean_text := "hello world" }] := rfl
  show (pySliceTo 5
    ((searchHits exC6Loader (pyLower "")).mergeSort resultLE)).length = 1
  rw [h, List.mergeSort_singleton]
  rfl

/-- C6 amended: search_content applies no validation to the query; the
empty string is a substring of every text, so with an empty query every
page and every HTML item contributes a hit, and search returns the
truncated sorted hit list rather than an error. -/
theorem c6_empty_query_matches_everything (ldr : Loader) (max_results : Int) :
    (pdfHits ldr (pyLower "")).length
        = (ldr.pdfs.map (fun pr => pr.2.pages.length)).sum ∧
    (htmlHits ldr (pyLower "")).length = ldr.html_content.length ∧
    search_content ldr "" max_results =
      pySliceTo max_results
        ((searchHits ldr (pyLower "")).mergeSort resultLE) := by
  have hdata : (pyLower "").data = [] := rfl
  refine ⟨?_, ?_, rfl⟩
  · unfold pdfHits
    rw [List.length_flatten, List.map_map]
    congr 1
    apply List.map_congr_left
    intro pr _
    show (pr.2.pages.filterMap _).length = pr.2.pages.length
    rw [filterMap_if_eq_map_filter, List.length_map]
    have hself : pr.2.pages.filter
        (fun page => pyInStr (pyLower "") (pyLower page.clean_text))
          = pr.2.pages := by
      rw [List.filter_eq_self]
      intro a _
      show pySubstr (pyLower "").data (pyLower a.clean_text).data = true
      rw [hdata]
      exact pySubstr_nil _
    rw [hself]
  · unfold htmlHits
    have hcond : ∀ item : HtmlItem,
        (pyInStr (pyLower "") (pyLower item.content) ||
          pyInStr (pyLower "") (pyLower item.title)) = true := by
      intro item
      have h1 : pyInStr (pyLower "") (pyLower item.content) = true := by
        show pySubstr (pyLower "").data (pyLower item.content).data = true
        rw [hdata]
        exact pySubstr_nil _
      rw [h1]
      rfl
    rw [filterMap_if_eq_map_filter
      (fun item => pyInStr (pyLower "") (pyLower item.content) ||
        pyInStr (pyLower "") (pyLower item.title))
      (mkHtmlResult (pyLower "")) ldr.html_content]
    rw [List.length_map]
    rw [List.filter_eq_self.mpr (fun a _ => hcond a)]

theorem resultLE_trans (a b c : SearchResult) (hab : resultLE a b)
    (hbc : resultLE b c) : resultLE a c := by
  simp only [resultLE, decide_eq_true_eq] at *
  exact le_trans hbc hab

theorem resultLE_total (a b : SearchResult) : resultLE a b || resultLE b a := by
  simp only [resultLE]
  rcases le_total a.relevance_score b.relevance_score with h | h
  · simp [h]
  · simp [h]

/-- Stability of the modelled sort: for every score value, the results
carrying that score appear in the sorted list exactly in their original
order.  This is the stable-tie contract of the Python sort. -/
theorem mergeSort_filter_stable (l : List SearchResult) (q : ℚ) :
    ((l.mergeSort resultLE).filter
        (fun r => decide (r.relevance_score = q)))
      = l.filter (fun r => decide (r.relevance_score = q)) := by
  have hpw : (l.filter (fun r => decide (r.relevance_score = q))).Pairwise
      (fun a b => resultLE a b = true) := by
    apply List.pairwise_of_forall_mem_list
    intro a ha b hb
    have ha2 := (List.mem_filter.mp ha).2
    have hb2 := (List.mem_filter.mp hb).2
    simp only [decide_eq_true_eq] at ha2 hb2
    simp [resultLE, ha2, hb2]
  have hsub : List.Sublist
      (l.filter (fun r => decide (r.relevance_score = q)))
      (l.mergeSort resultLE) :=
    List.sublist_mergeSort resultLE_trans resultLE_total hpw
      (List.filter_sublist l)
  have hsub2 : List.Sublist
      (l.filter (fun r => decide (r.relevance_score = q)))
      ((l.mergeSort resultLE).filter
        (fun r => decide (r.relevance_score = q))) := by
    have h2 := hsub.filter (fun r => decide (r.relevance_score = q))
    rw [List.filter_filter] at h2
    have he : (fun a : SearchResult =>
        decide (a.relevance_score = q) && decide (a.relevance_score = q))
          = fun a : SearchResult => decide (a.relevance_score = q) := by
      funext a
      exact Bool.and_self _
    rwa [he] at h2
  have hlen : ((l.mergeSort resultLE).filter
      (fun r => decide (r.relevance_score = q))).length
        = (l.filter (fun r => decide (r.relevance_score = q))).length :=
    ((List.mergeSort_perm l resultLE).filter _).length_eq
  exact (hsub2.eq_of_length hlen.symm).symm

/-- C3 amended: for every non-empty query and every non-negative
max_results, search returns at most max_results entries, the returned
sequence is sorted by score in descending order, and the sort is stable:
for every score value, the returned entries carrying it form a sublist
of the hit list in corpus iteration order, and the full sorted list
retains exactly the hit-order entries of that score.  The restriction to
non-negative max_results is forced by the Python slice semantics, under
which a negative bound drops entries from the end instead. -/
theorem c3_sorted_truncated (ldr : Loader) (query : String)
    (max_results : Int) (q : ℚ) (hq : query ≠ "") (hm : 0 ≤ max_results) :
    ((search_content ldr query max_results).length : Int) ≤ max_results ∧
    List.Pairwise
      (fun a b : SearchResult => b.relevance_score ≤ a.relevance_score)
      (search_content ldr query max_results) ∧
    List.Sublist
      ((search_content ldr query max_results).filter
        (fun r => decide (r.relevance_score = q)))
      ((searchHits ldr (pyLower query)).filter
        (fun r => decide (r.relevance_score = q))) ∧
    ((searchHits ldr (pyLower query)).mergeSort resultLE).filter
        (fun r => decide (r.relevance_score = q))
      = (searchHits ldr (pyLower query)).filter
        (fun r => decide (r.relevance_score = q)) := by
  have hstable := mergeSort_filter_stable (searchHits ldr (pyLower query)) q
  have hslice : search_content ldr query max_results =
      ((searchHits ldr (pyLower query)).mergeSort resultLE).take
        max_results.toNat := by
    show pySliceTo max_results
      ((searchHits ldr (pyLower query)).mergeSort resultLE) = _
    unfold pySliceTo
    rw [if_pos hm]
  refine ⟨?_, ?_, ?_, hstable⟩
  · rw [hslice]
    have h1 : (((searchHits ldr (pyLower query)).mergeSort
        resultLE).take max_results.toNat).length ≤ max_results.toNat :=
      le_trans (List.length_take_le ..) (le_refl _)
    have h2 : (max_results.toNat : Int) = max_results :=
      Int.toNat_of_nonneg hm
    omega
  · rw [hslice]
    have hsorted := List.sorted_mergeSort resultLE_trans resultLE_total
      (searchHits ldr (pyLower query))
    have hsorted2 : ((searchHits ldr (pyLower query)).mergeSort
        resultLE).Pairwise
        (fun a b : SearchResult =>
          b.relevance_score ≤ a.relevance_score) := by
      apply hsorted.imp
      intro a b hab
      simpa [resultLE, decide_eq_true_eq] using hab
    exact List.Pairwise.sublist (List.take_sublist ..) hsorted2
  · rw [hslice, ← hstable]
    exact (List.take_sublist ..).filter _

/-- The corpus of the counterexample to C3: two pages with equal scores
for the query a. -/
def exC3Loader : Loader :=
  { pdfs := [("guide.pdf",
      { pages :=
          [ { page_number := 1, clean_text := "a a" }
          , { page_number := 2, clean_text := "a a" } ]
      , chapters := [] })]
  , html_content := [] }

/-- Counterexample for C3 as stated: with the negative bound -1 the
Python slice drops one entry from the end of the two sorted hits, so
search returns one entry, and one is not at most -1; the claim as
stated quantifies over every max_results and therefore fails. -/
theorem c3_counterexample :
    (search_content exC3Loader "a" (-1)).length = 1 ∧ ¬((1 : Int) ≤ -1) := by
  constructor
  · have h : searchHits exC3Loader (pyLower "a") =
        [ mkPdfResult "guide.pdf" (pyLower "a")
            { page_number := 1, clean_text := "a a" }
        , mkPdfResult "guide.pdf" (pyLower "a")
            { page_number := 2, clean_text := "a a" } ] := rfl
    have hsc : (mkPdfResult "guide.pdf" (pyLower "a")
          { page_number := 2, clean_text := "a a" }).relevance_score =
        (mkPdfResult "guide.pdf" (pyLower "a")
          { page_number := 1, clean_text := "a a" }).relevance_score := rfl
    have hpw : List.Pairwise (fun a b : SearchResult => resultLE a b = true)
        [ mkPdfResult "guide.pdf" (pyLower "a")
            { page_number := 1, clean_text := "a a" }
        , mkPdfResult "guide.pdf" (pyLower "a")
            { page_number := 2, clean_text := "a a" } ] := by
      refine List.Pairwise.cons ?_ (List.pairwise_singleton ..)
      intro b hb
      have hb2 : b = mkPdfResult "guide.pdf" (pyLower "a")
          { page_number := 2, clean_text := "a a" } := by
        simpa using hb
      subst hb2
      simp [resultLE, hsc]
    show (pySliceTo (-1)
      ((searchHits exC3Loader (pyLower "a")).mergeSort resultLE)).length = 1
    rw [h, List.mergeSort_of_sorted hpw]
    rfl
  · decide

/-- Witness for C3 on the concrete two-page corpus, with bound five and
tie score two. -/
theorem c3_sorted_truncated_witness :
    ((search_content exC3Loader "a" 5).length : Int) ≤ 5 ∧
    List.Pairwise
      (fun a b : SearchResult => b.relevance_score ≤ a.relevance_score)
      (search_content exC3Loader "a" 5) ∧
    List.Sublist
      ((search_content exC3Loader "a" 5).filter
        (fun r => decide (r.relevance_score = 2)))
      ((searchHits exC3Loader (pyLower "a")).filter
        (fun r => decide (r.relevance_score = 2))) ∧
    ((searchHits exC3Loader (pyLower "a")).mergeSort resultLE).filter
        (fun r => decide (r.relevance_score = 2))
      = (searchHits exC3Loader (pyLower "a")).filter
        (fun r => decide (r.relevance_score = 2)) :=
  c3_sorted_truncated exC3Loader "a" 5 2 (by decide) (by decide)

end Ansys
